import Mathlib

/-!
Verification of the RestCatalog service against its specification.

The definitions below are a shallow embedding of the repository's Python
sources (`app/services/metadata_manager.py`, `app/services/storage_accessor.py`,
`app/crud/crud_table.py`, `app/crud/crud_namespace.py`,
`app/api/v1/table_router.py`, `app/models/iceberg_models.py`).  Pydantic
models become structures, dictionaries become association lists, exceptions
become an `Except` error type, and effectful inputs (wall clock, fresh UUIDs,
the database row observed by a query, the set of files on disk) become
explicit parameters.
-/

namespace RestCatalog

/-- The typed exception taxonomy of `app/core/exceptions.py`, restricted to the
constructors the embedded code can raise.  `noSuchTable` carries the identifier
list (`table_router` appends a `ref:` qualifier to it in `loadTableEndpoint`). -/
inductive IcebergError where
  | badRequest
  | validation
  | notFound
  | noSuchTable (identifier : List String)
  | noSuchNamespace
  | tableAlreadyExists
  | commitFailed
  | internalServerError
deriving DecidableEq, Repr

/-- `Except.isOk` as a plain boolean, used to state that a pipeline run
succeeded without spelling out the produced value. -/
def isOkResult {α : Type} : Except IcebergError α → Bool
  | .ok _ => true
  | .error _ => false

/-- Python `dict` lookup (`d[k]` / `k in d`) on an association list. -/
def dictGet {β : Type} (d : List (String × β)) (k : String) : Option β :=
  match d.find? (fun p => p.1 == k) with
  | some p => some p.2
  | none => none

/-- Python `d[k] = v`: overwrite the existing binding in place, else append. -/
def dictSet {β : Type} (d : List (String × β)) (k : String) (v : β) :
    List (String × β) :=
  match d with
  | [] => [(k, v)]
  | p :: rest => if p.1 == k then (k, v) :: rest else p :: dictSet rest k v

/-- Python `d.pop(k, None)`: drop the binding for `k` when present. -/
def dictPop {β : Type} (d : List (String × β)) (k : String) :
    List (String × β) :=
  match d with
  | [] => []
  | p :: rest => if p.1 == k then rest else p :: dictPop rest k

/-- Python `d.update(u)`: insert or overwrite every binding of `u` in order. -/
def dictUpdate {β : Type} (d u : List (String × β)) : List (String × β) :=
  u.foldl (fun acc p => dictSet acc p.1 p.2) d

/-- Python truthiness of an `Optional[str]`: `None` and `""` are falsy. -/
def pyTruthyStr : Option String → Bool
  | none => false
  | some s => !(s == "")

mutual

/-- `IcebergType` of `app/models/iceberg_models.py`: a primitive type name, a
struct, a list or a map.  Only struct types carry a `fields` attribute, which
is what the metadata manager's recursive max-field-id helpers test for. -/
inductive IcebergType where
  | prim (name : String)
  | structT (fields : List StructField)
  | listT (elementId : Int) (element : IcebergType) (elementRequired : Bool)
  | mapT (keyId : Int) (key : IcebergType) (valueId : Int) (value : IcebergType)
      (valueRequired : Bool)

/-- `StructField` of `iceberg_models.py`. -/
inductive StructField where
  | mk (id : Int) (name : String) (type : IcebergType) (required : Bool)
      (doc : Option String)

end

/-- The field id of a `StructField`. -/
def StructField.id : StructField → Int
  | .mk i _ _ _ _ => i

/-- The declared type of a `StructField`. -/
def StructField.fieldType : StructField → IcebergType
  | .mk _ _ t _ _ => t

mutual

/-- `getMaxIdRecursive` of `buildInitialTableMetadata`
(`metadata_manager.py`): the running max starts at `0`, takes each field's
`id`, and descends into `f.type.fields` when the type has a non-empty
`fields` attribute (only struct types do). -/
def getMaxIdRecursive : List StructField → Int
  | [] => 0
  | .mk i _ t _ _ :: fs =>
    max (max i (nestedStructFieldsMax t)) (getMaxIdRecursive fs)

/-- The contribution of one field's type in `getMaxIdRecursive`: a struct type
with non-empty `fields` is recursed into, every other type contributes
nothing (`0`, the loop's starting value). -/
def nestedStructFieldsMax : IcebergType → Int
  | .structT fs => if fs.isEmpty then 0 else getMaxIdRecursive fs
  | _ => 0

end

/-- `Schema` of `iceberg_models.py` (`schema-id` is optional). -/
structure Schema where
  schemaId : Option Int
  fields : List StructField
  identifierFieldIds : Option (List Int)

/-- `getMaxFieldIdFromSchema` of `applyUpdatesToMetadata`
(`metadata_manager.py`): the same recursion as `getMaxIdRecursive`, entered
through `schema.fields`. -/
def getMaxFieldIdFromSchema (s : Schema) : Int :=
  getMaxIdRecursive s.fields

/-- `PartitionField` of `iceberg_models.py`. -/
structure PartitionField where
  sourceId : Int
  fieldId : Int
  name : String
  transform : String

/-- `PartitionSpec` of `iceberg_models.py`. -/
structure PartitionSpec where
  specId : Int
  fields : List PartitionField

/-- `SortField` of `iceberg_models.py`. -/
structure SortField where
  sourceId : Int
  transform : String
  direction : String
  nullOrder : String

/-- `SortOrder` of `iceberg_models.py`. -/
structure SortOrder where
  orderId : Int
  fields : List SortField

/-- `Snapshot` of `iceberg_models.py`. -/
structure Snapshot where
  snapshotId : Int
  parentId : Option Int
  timestampMs : Int
  summary : Option (List (String × String))
  manifestList : String
  schemaId : Option Int

/-- `SnapshotReference` of `iceberg_models.py` (also the shape of the dict the
metadata manager stores into `refs`). -/
structure SnapshotReference where
  snapshotId : Int
  type : String
  minSnapshotsToKeep : Option Int
  maxSnapshotAgeMs : Option Int
  maxRefAgeMs : Option Int

/-- `TableMetadata` of `iceberg_models.py`.  `snapshotLog` entries are
`(timestamp-ms, snapshot-id)` pairs and `metadataLog` entries are
`(timestamp-ms, metadata-file)` pairs, matching the dict literals the code
builds.  Dictionaries are association lists. -/
structure TableMetadata where
  formatVersion : Int
  tableUuid : String
  location : String
  lastUpdatedMs : Int
  lastColumnId : Int
  schemas : List Schema
  currentSchemaId : Int
  partitionSpecs : List PartitionSpec
  defaultSpecId : Int
  lastPartitionId : Int
  properties : Option (List (String × String))
  currentSnapshotId : Option Int
  snapshots : Option (List Snapshot)
  snapshotLog : Option (List (Int × Int))
  metadataLog : Option (List (Int × String))
  sortOrders : List SortOrder
  defaultSortOrderId : Int
  refs : Option (List (String × SnapshotReference))

/-- The `TableUpdate` union of `iceberg_models.py` as a tagged sum. -/
inductive TableUpdate where
  | assignUUID (uuid : String)
  | upgradeFormatVersion (formatVersion : Int)
  | addSchema (schemaModel : Schema) (lastAssignedFieldId : Option Int)
  | setCurrentSchema (schemaId : Int)
  | addPartitionSpec (spec : PartitionSpec)
  | setDefaultSpec (specId : Int)
  | addSortOrder (sortOrder : SortOrder)
  | setDefaultSortOrder (sortOrderId : Int)
  | addSnapshot (snapshot : Snapshot)
  | removeSnapshots (snapshotIds : List Int)
  | setSnapshotRef (refName : String) (type : String) (snapshotId : Int)
      (maxRefAgeMs : Option Int) (maxSnapshotAgeMs : Option Int)
      (minSnapshotsToKeep : Option Int)
  | removeSnapshotRef (refName : String)
  | setProperties (updates : List (String × String))
  | removeProperties (removals : List String)
  | setLocation (location : String)

/-- The `TableRequirement` union of `iceberg_models.py` as a tagged sum.
`assertRefSnapshotID`'s id is `None` when the ref must be absent. -/
inductive TableRequirement where
  | assertCreate
  | assertTableUUID (uuid : String)
  | assertDefaultSpecID (defaultSpecId : Int)
  | assertDefaultSortOrderID (defaultSortOrderId : Int)
  | assertCurrentSchemaID (currentSchemaId : Int)
  | assertLastAssignedFieldID (lastAssignedFieldId : Int)
  | assertRefSnapshotID (ref : String) (snapshotId : Option Int)

/-! ### String and POSIX path helpers

The Python sources lean on `os.path` and `str` methods.  These are modeled
here over `List Char` so that concrete runs reduce inside the kernel.
Symlinks are not modeled, and `posixpath`'s special treatment of exactly two
leading slashes is ignored. -/

/-- `s.startswith(pre)`. -/
def strStartsWith (s pre : String) : Bool :=
  pre.data.isPrefixOf s.data

/-- `s.endswith(suf)`. -/
def strEndsWith (s suf : String) : Bool :=
  suf.data.isSuffixOf s.data

/-- Python `pat in s` (substring containment) on character lists. -/
def chContains (pat : List Char) : List Char → Bool
  | [] => pat.isEmpty
  | l@(_ :: rest) => pat.isPrefixOf l || chContains pat rest

/-- Python `s.split(sep)` for a one-character separator: every run between
separators, keeping empty runs, never returning an empty list. -/
def chSplitOn (sep : Char) : List Char → List (List Char)
  | [] => [[]]
  | c :: rest =>
    let r := chSplitOn sep rest
    if c == sep then [] :: r
    else
      match r with
      | g :: gs => (c :: g) :: gs
      | [] => [[c]]

/-- The numeric value of a list of decimal digits. -/
def digitsToNat (l : List Char) : Nat :=
  l.foldl (fun acc c => acc * 10 + (c.toNat - 48)) 0

/-- Python `int(str)`: an optional sign followed by decimal digits (the
whitespace and underscore forms Python also accepts are not modeled; the
version prefixes this is applied to never use them). `none` models the
`ValueError` the callers catch. -/
def parseIntPy (s : String) : Option Int :=
  match s.data with
  | [] => none
  | '-' :: rest =>
    if rest.isEmpty || !rest.all Char.isDigit then none
    else some (-(Int.ofNat (digitsToNat rest)))
  | '+' :: rest =>
    if rest.isEmpty || !rest.all Char.isDigit then none
    else some (Int.ofNat (digitsToNat rest))
  | l => if l.all Char.isDigit then some (Int.ofNat (digitsToNat l)) else none

/-- Python `s.isdigit()` restricted to ASCII digits (the service's snapshot
ids and refs are ASCII). -/
def pyIsDigit (s : String) : Bool :=
  !(s == "") && s.data.all Char.isDigit

/-- `posixpath.join(a, b)` for two components. -/
def osPathJoin (a b : String) : String :=
  if strStartsWith b "/" then b
  else if a == "" || strEndsWith a "/" then a ++ b
  else a ++ "/" ++ b

/-- One pass of `posixpath.normpath`'s segment processing: empty and `.`
segments are dropped, `..` pops the last kept segment (or is dropped at the
root of an absolute path). -/
def normSegments (acc : List (List Char)) : List (List Char) → List (List Char)
  | [] => acc.reverse
  | seg :: rest =>
    if seg.isEmpty || seg == ['.'] then normSegments acc rest
    else if seg == ['.', '.'] then
      match acc with
      | [] => normSegments [] rest
      | _ :: t => normSegments t rest
    else normSegments (seg :: acc) rest

/-- Segments joined with `/`. -/
def joinSlash : List (List Char) → List Char
  | [] => []
  | [g] => g
  | g :: gs => g ++ '/' :: joinSlash gs

/-- `posixpath.normpath` on an absolute path. -/
def normPathAbs (p : String) : String :=
  let segs := normSegments [] (chSplitOn '/' p.data)
  if segs.isEmpty then "/" else String.mk ('/' :: joinSlash segs)

/-- `os.path.abspath(p)` = `normpath(join(cwd, p))`, with the working
directory an explicit parameter (assumed absolute). -/
def osPathAbspath (cwd p : String) : String :=
  normPathAbs (osPathJoin cwd p)

/-- `os.path.basename(p)` on POSIX: the part after the last `/`. -/
def osBasename (p : String) : String :=
  String.mk ((chSplitOn '/' p.data).getLastD [])

/-! ### Storage accessor (`app/services/storage_accessor.py`) -/

/-- `StorageAccessor._resolvePath`: a path containing `://` or absolute is
taken as-is (with a `file://` prefix stripped); a relative path is resolved
against the warehouse root and the result must pass a `startswith` test
against the canonicalized root, else `ValidationException` (path traversal).
`readJsonFile`, `writeJsonFile`, `fileExists` and `deleteFile` all resolve
their path argument through this function first. -/
def resolvePath (cwd baseWarehousePath p : String) : Except IcebergError String :=
  if chContains "://".data p.data || strStartsWith p "/" then
    .ok (if strStartsWith p "file://" then p.drop 7 else p)
  else
    let fullPath := osPathAbspath cwd (osPathJoin baseWarehousePath p)
    if !(strStartsWith fullPath (osPathAbspath cwd baseWarehousePath)) then
      .error .validation
    else .ok fullPath

/-- Claim-side notion (spec §4.1, §8.7): `p` is a descendant of the directory
`root` when it equals `root` or lies below it with a path-separator
boundary. -/
def isDescendantPath (root p : String) : Bool :=
  p == root || strStartsWith p (root ++ "/")

/-! ### Metadata manager (`app/services/metadata_manager.py`) -/

/-- `f"{version:05d}"`: decimal rendering zero-padded to width 5, the sign
counting toward the width. -/
def zeroPad5 (n : Int) : String :=
  let digits := toString n.natAbs
  let width : Nat := if n < 0 then 4 else 5
  let padded :=
    if digits.length < width then
      String.mk (List.replicate (width - digits.length) '0') ++ digits
    else digits
  if n < 0 then "-" ++ padded else padded

/-- `MetadataManager.generateNewMetadataLocation`: the version prefix of
`basename(oldLocation)` (before the first `-`) plus one, or `0` when absent
or unparsable; the fresh UUID string is an explicit parameter. -/
def generateNewMetadataLocation (tableLocation : String)
    (oldMetadataLocation : Option String) (freshUuid : String) : String :=
  let version : Int :=
    match oldMetadataLocation with
    | none => 0
    | some old =>
      if old == "" then 0
      else
        let filename := (chSplitOn '/' old.data).getLastD []
        let versionStr := (chSplitOn '-' filename).headD []
        match parseIntPy (String.mk versionStr) with
        | some v => v + 1
        | none => 0
  let metadataDir := osPathJoin tableLocation "metadata"
  osPathJoin metadataDir (zeroPad5 version ++ "-" ++ freshUuid ++ ".metadata.json")

/-- `MetadataManager.buildInitialTableMetadata`.  The generated table UUID,
the wall clock and the metadata file name's UUID are explicit parameters.
The first component of the result is the final value of the caller's
`schema` object: the source mutates it in place when its `schemaId` is
`None`, and the very same object is stored in the returned metadata's
`schemas` list. -/
def buildInitialTableMetadata (tableName : String) (schema : Schema)
    (partitionSpec : Option PartitionSpec) (sortOrder : Option SortOrder)
    (properties : Option (List (String × String))) (tableLocation : String)
    (freshTableUuid : String) (nowMs : Int) (freshFileUuid : String) :
    Schema × TableMetadata × String :=
  let maxId : Int :=
    if schema.fields.isEmpty then 0 else getMaxIdRecursive schema.fields
  let schema :=
    if schema.schemaId = none then { schema with schemaId := some 0 } else schema
  let actualPartitionSpecFields :=
    match partitionSpec with
    | some ps => if ps.fields.isEmpty then [] else ps.fields
    | none => []
  let lastPartitionId : Int :=
    match actualPartitionSpecFields with
    | [] => 0
    | f :: fs => fs.foldl (fun a p => max a p.fieldId) f.fieldId
  let metadataJsonFileLocation :=
    generateNewMetadataLocation tableLocation none freshFileUuid
  let _ := tableName
  let initialMetadata : TableMetadata :=
    { formatVersion := 1
      tableUuid := freshTableUuid
      location := tableLocation
      lastUpdatedMs := nowMs
      lastColumnId := maxId
      schemas := [schema]
      -- `schemaId` was forced to a value just above, so `getD` never fires
      currentSchemaId := schema.schemaId.getD 0
      partitionSpecs := match partitionSpec with | some ps => [ps] | none => []
      defaultSpecId := match partitionSpec with | some ps => ps.specId | none => 0
      lastPartitionId := lastPartitionId
      -- Python `properties or {}`
      properties := some (properties.getD [])
      currentSnapshotId := none
      snapshots := some []
      snapshotLog := some []
      metadataLog := some [(nowMs, metadataJsonFileLocation)]
      sortOrders := match sortOrder with | some so => [so] | none => []
      defaultSortOrderId := match sortOrder with | some so => so.orderId | none => 0
      refs := some [] }
  (schema, initialMetadata, metadataJsonFileLocation)

/-- One iteration of the update loop of
`MetadataManager.applyUpdatesToMetadata`, mirroring its `isinstance` chain.
`RemoveSnapshotsUpdate` and `RemoveSnapshotRefUpdate` are defined in
`iceberg_models.py` and admitted by the wire `TableUpdate` union, but they
appear in no `isinstance` branch (the manager does not even import them), so
they reach the final `else` that raises `BadRequestException` for an
unsupported action. -/
def applyOneUpdate (newTableLocationForSetLocation : Option String)
    (m : TableMetadata) : TableUpdate → Except IcebergError TableMetadata
  | .assignUUID u => .ok { m with tableUuid := u }
  | .upgradeFormatVersion v =>
    if v > m.formatVersion then .ok { m with formatVersion := v }
    else .error .commitFailed
  | .addSchema s lastAssignedFieldId =>
    if m.schemas.any (fun s2 => s2.schemaId == s.schemaId) then
      .error .commitFailed
    else
      let maxExistingFieldId := m.lastColumnId
      let newSchemaMaxFieldId := getMaxFieldIdFromSchema s
      let lastColumnId := max maxExistingFieldId newSchemaMaxFieldId
      let lastColumnId :=
        match lastAssignedFieldId with
        | some v => max lastColumnId v
        | none => lastColumnId
      .ok { m with schemas := m.schemas ++ [s], lastColumnId := lastColumnId }
  | .setCurrentSchema sid =>
    if !(m.schemas.any (fun s2 => s2.schemaId == some sid)) then
      .error .commitFailed
    else .ok { m with currentSchemaId := sid }
  | .addPartitionSpec spec =>
    if m.partitionSpecs.any (fun ps => ps.specId == spec.specId) then
      .error .commitFailed
    else
      let newSpecMaxFieldId : Int :=
        match spec.fields with
        | [] => 0
        | f :: fs => fs.foldl (fun a p => max a p.fieldId) f.fieldId
      .ok { m with partitionSpecs := m.partitionSpecs ++ [spec],
                   lastPartitionId := max m.lastPartitionId newSpecMaxFieldId }
  | .setDefaultSpec sid =>
    if !(m.partitionSpecs.any (fun ps => ps.specId == sid)) then
      .error .commitFailed
    else .ok { m with defaultSpecId := sid }
  | .addSortOrder so =>
    if m.sortOrders.any (fun s2 => s2.orderId == so.orderId) then
      .error .commitFailed
    else .ok { m with sortOrders := m.sortOrders ++ [so] }
  | .setDefaultSortOrder oid =>
    if !(m.sortOrders.any (fun s2 => s2.orderId == oid)) then
      .error .commitFailed
    else .ok { m with defaultSortOrderId := oid }
  | .addSnapshot snap =>
    .ok { m with
      snapshots := some (m.snapshots.getD [] ++ [snap])
      currentSnapshotId := some snap.snapshotId
      snapshotLog :=
        some (m.snapshotLog.getD [] ++ [(snap.timestampMs, snap.snapshotId)])
      refs := some (dictSet (m.refs.getD []) "main"
        { snapshotId := snap.snapshotId, type := "branch",
          minSnapshotsToKeep := none, maxSnapshotAgeMs := none,
          maxRefAgeMs := none }) }
  | .setSnapshotRef refName ty snapshotId maxRefAgeMs maxSnapshotAgeMs
      minSnapshotsToKeep =>
    .ok { m with refs := some (dictSet (m.refs.getD []) refName
      { snapshotId := snapshotId, type := ty,
        minSnapshotsToKeep := minSnapshotsToKeep,
        maxSnapshotAgeMs := maxSnapshotAgeMs, maxRefAgeMs := maxRefAgeMs }) }
  | .setProperties updates =>
    .ok { m with properties := some (dictUpdate (m.properties.getD []) updates) }
  | .removeProperties removals =>
    -- `if newMetadata.properties:` — both `None` and `{}` skip the removal
    match m.properties with
    | none => .ok m
    | some ps =>
      if ps.isEmpty then .ok m
      else .ok { m with properties := some (removals.foldl dictPop ps) }
  | .setLocation loc =>
    if pyTruthyStr newTableLocationForSetLocation then
      .ok { m with location := newTableLocationForSetLocation.getD "" }
    else .ok { m with location := loc }
  | .removeSnapshots _ => .error .badRequest
  | .removeSnapshotRef _ => .error .badRequest

/-- The `for update in updates:` loop of `applyUpdatesToMetadata`: the first
raised exception aborts the whole application. -/
def applyUpdatesLoop (ovr : Option String) :
    TableMetadata → List TableUpdate → Except IcebergError TableMetadata
  | m, [] => .ok m
  | m, u :: us =>
    match applyOneUpdate ovr m u with
    | .ok m2 => applyUpdatesLoop ovr m2 us
    | .error e => .error e

/-- `MetadataManager.applyUpdatesToMetadata`: deep-copy the input (value
semantics here), advance `lastUpdatedMs` to the wall clock (an explicit
parameter), then apply the updates in order. -/
def applyUpdatesToMetadata (currentMetadata : TableMetadata)
    (updates : List TableUpdate)
    (newTableLocationForSetLocation : Option String) (nowMs : Int) :
    Except IcebergError TableMetadata :=
  applyUpdatesLoop newTableLocationForSetLocation
    { currentMetadata with lastUpdatedMs := nowMs } updates

/-! ### Table CRUD (`app/crud/crud_table.py`) -/

/-- `CRUDTable.updateTableMetadataLocation`.  `dbTable` is the
`metadata_location` of the row the method's own `getTableByIdentifier`
re-read (`none` when the table vanished).  The optimistic-lock comparison
runs only when `oldMetadataLocationForCheck` is truthy (neither `None` nor
`""`).  The returned string is the row's new `metadata_location`. -/
def updateTableMetadataLocation (dbTable : Option String)
    (identifier : List String) (newMetadataLocation : String)
    (oldMetadataLocationForCheck : Option String) :
    Except IcebergError String :=
  match dbTable with
  | none => .error (.noSuchTable identifier)
  | some currentLocation =>
    if pyTruthyStr oldMetadataLocationForCheck &&
        !(currentLocation == oldMetadataLocationForCheck.getD "") then
      .error .commitFailed
    else .ok newMetadataLocation

/-! ### Commit pipeline (`app/api/v1/table_router.py`, update path) -/

/-- The requirements loop of `commitTableEndpoint` (lines 304-307): only
`assert-table-uuid` is compared; every other requirement kind falls through
the loop body unchecked. -/
def checkRequirements (currentMetadata : TableMetadata) :
    List TableRequirement → Except IcebergError Unit
  | [] => .ok ()
  | req :: rest =>
    match req with
    | .assertTableUUID u =>
      if !(currentMetadata.tableUuid == u) then .error .commitFailed
      else checkRequirements currentMetadata rest
    | _ => checkRequirements currentMetadata rest

/-- The scan of `commitTableEndpoint` for the first `SetLocationUpdate`
(lines 311-314). -/
def firstSetLocation (updates : List TableUpdate) : Option String :=
  match updates.find? (fun u => match u with
    | .setLocation _ => true
    | _ => false) with
  | some (.setLocation loc) => some loc
  | _ => none

/-- Python `files` set on disk: `writeJsonFile` creates the file (a rewrite
leaves the set unchanged). -/
def writeFileTo (files : List String) (path : String) : List String :=
  if path ∈ files then files else files ++ [path]

/-- `deleteFile`: idempotent removal. -/
def deleteFileFrom (files : List String) (path : String) : List String :=
  files.filter (fun f => !(f == path))

/-- Result of one run of the update path of `commitTableEndpoint`: the HTTP
outcome, the catalog row's final `metadata_location`, and the final set of
files on disk. -/
structure CommitOutcome where
  result : Except IcebergError (String × TableMetadata)
  row : Option String
  files : List String

/-- The update path of `commitTableEndpoint` (no `AssertCreate` requirement;
the table row existed and `currentMetadata` was parsed from
`oldMetadataLocation`).  `rowAtCas` is the row's `metadata_location` at the
moment `updateTableMetadataLocation` re-reads it — a concurrent commit may
have moved it away from `oldMetadataLocation`.  On a `CommitFailedException`
from the CAS the endpoint deletes the newly written file and re-raises; on
any other exception it deletes the file and wraps the failure in
`CommitFailedException`. -/
def commitTableUpdate (identifier : List String)
    (currentMetadata : TableMetadata) (oldMetadataLocation : String)
    (requirements : List TableRequirement) (updates : List TableUpdate)
    (nowMs : Int) (freshFileUuid : String)
    (rowAtCas : Option String) (files : List String) : CommitOutcome :=
  match checkRequirements currentMetadata requirements with
  | .error e => ⟨.error e, rowAtCas, files⟩
  | .ok _ =>
    let newTableBaseLocationForSetLocation :=
      (firstSetLocation updates).getD currentMetadata.location
    match applyUpdatesToMetadata currentMetadata updates
        (some newTableBaseLocationForSetLocation) nowMs with
    | .error e => ⟨.error e, rowAtCas, files⟩
    | .ok md =>
      let newMetadataFileLocation :=
        generateNewMetadataLocation md.location (some oldMetadataLocation)
          freshFileUuid
      let md := { md with metadataLog := some (md.metadataLog.getD [] ++
          [(md.lastUpdatedMs, newMetadataFileLocation)]) }
      let files := writeFileTo files newMetadataFileLocation
      match updateTableMetadataLocation rowAtCas identifier
          newMetadataFileLocation (some oldMetadataLocation) with
      | .ok newLoc => ⟨.ok (newMetadataFileLocation, md), some newLoc, files⟩
      | .error _ =>
        ⟨.error .commitFailed, rowAtCas,
          deleteFileFrom files newMetadataFileLocation⟩

/-! ### Snapshot-ref resolution (`loadTableEndpoint`, lines 176-205) -/

/-- The `targetSnapshotId` computation of `loadTableEndpoint`: an all-digits
ref is taken as a snapshot id outright; otherwise a ref name present in a
non-empty `refs` dict wins; otherwise the snapshots list is scanned for one
whose id prints as the given string. -/
def resolveTargetSnapshotId (tableMetadata : TableMetadata)
    (snapshotRef : String) : Option Int :=
  if pyIsDigit snapshotRef then
    -- `int(snapshotRef)`: `isdigit` guarantees the parse, `getD` never fires
    some (Int.ofNat ((snapshotRef.data.foldl
      (fun acc c => acc * 10 + (c.toNat - 48)) 0 : Nat)))
  else if !(tableMetadata.refs.getD []).isEmpty &&
      (dictGet (tableMetadata.refs.getD []) snapshotRef).isSome then
    (dictGet (tableMetadata.refs.getD []) snapshotRef).map
      (fun r => r.snapshotId)
  else
    ((tableMetadata.snapshots.getD []).find?
      (fun s => toString s.snapshotId == snapshotRef)).map
      (fun s => s.snapshotId)

/-- The snapshot-ref branch of `loadTableEndpoint` for a truthy
`snapshotRef` query parameter: resolve a target snapshot id, fail
`NoSuchTableException` with a `ref:` qualifier when unresolved, fail
`CommitFailedException` when the id is absent from `snapshots`, else return
the in-memory copy with `currentSnapshotId` retargeted and
`currentSchemaId` replaced when the snapshot carries a `schema_id`. -/
def resolveLoadTable (identifier : List String)
    (tableMetadata : TableMetadata) (snapshotRef : String) :
    Except IcebergError TableMetadata :=
  match resolveTargetSnapshotId tableMetadata snapshotRef with
  | none => .error (.noSuchTable (identifier ++ ["ref:" ++ snapshotRef]))
  | some target =>
    match (tableMetadata.snapshots.getD []).find?
        (fun s => s.snapshotId == target) with
    | none => .error .commitFailed
    | some currentSnap =>
      .ok { tableMetadata with
        currentSnapshotId := some target
        currentSchemaId :=
          match currentSnap.schemaId with
          | some sid => sid
          | none => tableMetadata.currentSchemaId }

/-! ### Namespace CRUD (`app/crud/crud_namespace.py`) -/

/-- A `NamespaceModel` row. -/
structure NamespaceRow where
  levels : List String
  properties : Option (List (String × String))
deriving DecidableEq

/-- Byte-wise string comparison (the catalog store's text ordering). -/
def charListCompare : List Char → List Char → Ordering
  | [], [] => .eq
  | [], _ :: _ => .lt
  | _ :: _, [] => .gt
  | a :: as, b :: bs =>
    if a.toNat < b.toNat then .lt
    else if b.toNat < a.toNat then .gt
    else charListCompare as bs

/-- Element-wise comparison of level lists (`ORDER BY levels`). -/
def levelsCompare : List String → List String → Ordering
  | [], [] => .eq
  | [], _ :: _ => .lt
  | _ :: _, [] => .gt
  | a :: as, b :: bs =>
    match charListCompare a.data b.data with
    | .eq => levelsCompare as bs
    | o => o

/-- Insertion into a list sorted by `levels`. -/
def insertByLevels (r : NamespaceRow) : List NamespaceRow → List NamespaceRow
  | [] => [r]
  | x :: xs =>
    if levelsCompare r.levels x.levels == .gt then x :: insertByLevels r xs
    else r :: x :: xs

/-- Sorting by `levels` (the `ORDER BY` of `listNamespaces`). -/
def sortByLevels : List NamespaceRow → List NamespaceRow
  | [] => []
  | x :: xs => insertByLevels x (sortByLevels xs)

/-- `CRUDNamespace.listNamespaces`: selects every row and orders it by
`levels`.  The source contains `if parent: pass` — the `parent` filter body
is empty, so the argument never affects the result. -/
def listNamespaces (rows : List NamespaceRow)
    (parent : Option (List String)) : List NamespaceRow :=
  let _ := parent
  sortByLevels rows

/-- Claim-side notion (spec §4.2): `ls` is a direct child of `parent` when
its label sequence starts with `parent` and is one label longer. -/
def isChildNamespace (parent ls : List String) : Prop :=
  ls.take parent.length = parent ∧ ls.length = parent.length + 1

instance (parent ls : List String) : Decidable (isChildNamespace parent ls) :=
  inferInstanceAs (Decidable (_ ∧ _))

/-! ### The amended snapshot-ref resolution (claim C5)

A reference description written from the amended claim's words, to be
compared with the embedding of the endpoint. -/

/-- Amended resolution order for `snapshot-ref`: an all-digits string is a
snapshot id outright (even when a ref of that name exists); otherwise a ref
name looked up in `refs`; otherwise the printed id of some listed
snapshot. -/
def specTargetSnapshotId (m : TableMetadata) (snapshotRef : String) :
    Option Int :=
  if pyIsDigit snapshotRef then
    some (Int.ofNat (digitsToNat snapshotRef.data))
  else
    match dictGet (m.refs.getD []) snapshotRef with
    | some r => some r.snapshotId
    | none =>
      match (m.snapshots.getD []).find?
          (fun s => toString s.snapshotId == snapshotRef) with
      | some s => some s.snapshotId
      | none => none

/-- The amended behaviour of the snapshot-ref branch of `loadTable`:
resolve per `specTargetSnapshotId`; an unresolved ref fails `NoSuchTable`
with a `ref:` qualifier, a resolved id missing from `snapshots` fails
`CommitFailed`, and otherwise a copy is returned with `currentSnapshotId`
retargeted and `currentSchemaId` replaced when the snapshot names a
schema. -/
def loadTableRefSpec (identifier : List String) (m : TableMetadata)
    (snapshotRef : String) : Except IcebergError TableMetadata :=
  match specTargetSnapshotId m snapshotRef with
  | none => .error (.noSuchTable (identifier ++ ["ref:" ++ snapshotRef]))
  | some target =>
    match (m.snapshots.getD []).find? (fun s => s.snapshotId == target) with
    | none => .error .commitFailed
    | some snap =>
      .ok { m with
        currentSnapshotId := some target
        currentSchemaId := snap.schemaId.getD m.currentSchemaId }

/-! ### Invariants and concrete fixtures -/

/-- Spec §3 / §8.5: `last_column_id` bounds every field id of every stored
schema (descending into struct fields, as both recursive helpers of the
metadata manager do). -/
def schemaFieldIdBound (m : TableMetadata) : Prop :=
  ∀ s ∈ m.schemas, getMaxFieldIdFromSchema s ≤ m.lastColumnId

/-- A small concrete metadata value (a freshly created two-column table)
used by the concrete evaluations below. -/
def mBase : TableMetadata :=
  { formatVersion := 1
    tableUuid := "uuid-1"
    location := "/wh/db/t"
    lastUpdatedMs := 1000
    lastColumnId := 2
    schemas := [{ schemaId := some 0
                  fields := [.mk 1 "x" (.prim "int") false none,
                             .mk 2 "y" (.prim "string") false none]
                  identifierFieldIds := none }]
    currentSchemaId := 0
    partitionSpecs := []
    defaultSpecId := 0
    lastPartitionId := 0
    properties := some []
    currentSnapshotId := none
    snapshots := some []
    snapshotLog := some []
    metadataLog := some []
    sortOrders := []
    defaultSortOrderId := 0
    refs := some [] }

/-- A snapshot with id 7. -/
def snap7 : Snapshot :=
  { snapshotId := 7, parentId := none, timestampMs := 1, summary := none,
    manifestList := "m7", schemaId := none }

/-- A snapshot with id 42. -/
def snap42 : Snapshot :=
  { snapshotId := 42, parentId := none, timestampMs := 2, summary := none,
    manifestList := "m42", schemaId := none }

/-- A branch ref pointing at snapshot 7. -/
def refTo7 : SnapshotReference :=
  { snapshotId := 7, type := "tag", minSnapshotsToKeep := none,
    maxSnapshotAgeMs := none, maxRefAgeMs := none }

/-- Metadata whose `refs` bind the all-digits name `"42"` to snapshot 7,
while snapshots 7 and 42 both exist. -/
def mRefClash : TableMetadata :=
  { mBase with
    snapshots := some [snap7, snap42]
    refs := some [("42", refTo7)]
    currentSnapshotId := some 7 }

/-- Metadata with a `main` ref on snapshot 7. -/
def mWithMain : TableMetadata :=
  { mBase with
    snapshots := some [snap7]
    refs := some [("main", { refTo7 with type := "branch" })]
    currentSnapshotId := some 7 }

/-- Three stored namespaces: `a`, `a.b` and `c`. -/
def nsRowsABC : List NamespaceRow :=
  [{ levels := ["a"], properties := none },
   { levels := ["a", "b"], properties := none },
   { levels := ["c"], properties := none }]

/-- The metadata location a first commit writes for `mBase`. -/
def oldLoc0 : String := "/wh/db/t/metadata/00000-aaa.metadata.json"

/-! ## Claim theorems -/

/-- C6: upgrading to the metadata's own format version is rejected.  On
`mBase` (`format_version = 1`) the update `UpgradeFormatVersion(1)` raises
`CommitFailedException` ("Cannot downgrade format version from 1 to 1"),
even though the claim (and spec §4.3.3) allow every `v ≥ f` and reserve the
failure for `v < f`; a genuine upgrade to `2` succeeds.  The guard in
`metadata_manager.py` line 122 uses strict `>` where its own diagnostic
speaks only of downgrades. -/
theorem upgradeToEqualFormatVersionRejected :
    mBase.formatVersion = 1 ∧
    applyUpdatesToMetadata mBase [.upgradeFormatVersion 1] none 2000 =
      .error .commitFailed ∧
    applyUpdatesToMetadata mBase [.upgradeFormatVersion 2] none 2000 =
      .ok { mBase with lastUpdatedMs := 2000, formatVersion := 2 } :=
  ⟨rfl, rfl, rfl⟩

/-- C3 counterexample: the claim says `RemoveSnapshotRef` and
`RemoveSnapshots` succeed and remove the named ref / snapshots, and that
only unknown variants fail with `BadRequest`.  On `mWithMain` (which has a
`main` ref on listed snapshot 7) both updates in fact fail with
`BadRequest`. -/
theorem removeSnapshotUpdatesRejected_cex :
    dictGet (mWithMain.refs.getD []) "main" =
      some { refTo7 with type := "branch" } ∧
    applyUpdatesToMetadata mWithMain [.removeSnapshotRef "main"] none 2000 =
      .error .badRequest ∧
    applyUpdatesToMetadata mWithMain [.removeSnapshots [7]] none 2000 =
      .error .badRequest :=
  ⟨rfl, rfl, rfl⟩

/-- C3 amended: `applyUpdatesToMetadata` does not implement
`RemoveSnapshotRef` or `RemoveSnapshots`; both variants fall through the
`isinstance` chain to the unsupported-action branch and fail with
`BadRequest` on every metadata value, producing no metadata. -/
theorem removeSnapshotUpdatesUnsupported (m : TableMetadata) (name : String)
    (ids : List Int) (ovr : Option String) (nowMs : Int) :
    applyUpdatesToMetadata m [.removeSnapshotRef name] ovr nowMs =
      .error .badRequest ∧
    applyUpdatesToMetadata m [.removeSnapshots ids] ovr nowMs =
      .error .badRequest :=
  ⟨rfl, rfl⟩

/-- C4: with warehouse root `/wh`, the relative path `../whse/x`
canonicalizes to `/whse/x`, which is not a descendant of `/wh`, yet
`_resolvePath` accepts it: the sandbox check is a bare string-prefix test
(`"/whse/x".startswith("/wh")`), so sibling directories whose name extends
the root's leak through.  The claim's particular case `../x` does fail with
`Validation`, but the universal descendant guarantee (spec §4.1, §8.7) does
not hold. -/
theorem resolvePathPrefixEscape_bug :
    resolvePath "/" "/wh" "../whse/x" = .ok "/whse/x" ∧
    isDescendantPath "/wh" "/whse/x" = false ∧
    resolvePath "/" "/wh" "../x" = .error .validation ∧
    isOkResult (resolvePath "/" "/wh" "../whse/x") = true :=
  ⟨rfl, rfl, rfl, rfl⟩

/-- C7: `CRUDNamespace.listNamespaces` ignores its `parent` argument — the
source reads `if parent: pass` — and returns every namespace.  With rows
`a`, `a.b`, `c` and `parent = ["a"]` the claim demands exactly `[a.b]`, but
the code returns all three rows, including `c`, which is not a child of
`a`. -/
theorem listNamespacesIgnoresParent_bug :
    listNamespaces nsRowsABC (some ["a"]) = nsRowsABC ∧
    (⟨["c"], none⟩ : NamespaceRow) ∈ listNamespaces nsRowsABC (some ["a"]) ∧
    ¬ isChildNamespace ["a"] ["c"] ∧
    ¬ isChildNamespace ["a"] ["a"] :=
  ⟨rfl, by decide, by decide, by decide⟩

/-- C9: when `oldMetadataLocationForCheck` is `None` or the empty string —
both falsy in the `if oldMetadataLocationForCheck and …` guard of
`crud_table.py` line 127 — `updateTableMetadataLocation` on an existing row
skips the optimistic-lock comparison entirely and overwrites
`metadata_location` with the new value, never raising `CommitFailed`. -/
theorem updateLocationSkipsCheckWhenFalsy (cur newLoc : String)
    (ident : List String) (oldCheck : Option String)
    (hfalsy : oldCheck = none ∨ oldCheck = some "") :
    updateTableMetadataLocation (some cur) ident newLoc oldCheck =
      .ok newLoc := by
  rcases hfalsy with h | h <;> subst h <;>
    simp [updateTableMetadataLocation, pyTruthyStr]

/-- C9 witness: a concrete row keeps no lock with a `None` check value. -/
theorem updateLocationSkipsCheckWhenFalsy_witness :
    updateTableMetadataLocation (some "/wh/a") ["db", "t"] "/wh/b" none =
      .ok "/wh/b" :=
  updateLocationSkipsCheckWhenFalsy "/wh/a" "/wh/b" ["db", "t"] none
    (Or.inl rfl)

/-- A requirement that is not an `assert-table-uuid` neither checks nor
fails: the loop body of `commitTableEndpoint` skips it, and it does not make
an `assert-table-uuid` requirement appear or disappear in the list. -/
theorem checkRequirements_skipNonUuid (m : TableMetadata)
    (req : TableRequirement) (rest : List TableRequirement)
    (hr : ∀ u, req ≠ TableRequirement.assertTableUUID u) :
    checkRequirements m (req :: rest) = checkRequirements m rest ∧
    ∀ v, (TableRequirement.assertTableUUID v ∈ req :: rest ↔
      TableRequirement.assertTableUUID v ∈ rest) := by
  constructor
  · cases req
    case assertTableUUID u => exact absurd rfl (hr u)
    all_goals rfl
  · intro v
    constructor
    · intro hv
      rcases List.mem_cons.mp hv with hv | hv
      · exact absurd hv.symm (hr v)
      · exact hv
    · intro hv
      exact List.mem_cons.mpr (Or.inr hv)

/-- C2 amended: on the update path only `AssertTableUUID` is enforced.  The
requirements check succeeds exactly when every `assert-table-uuid`
requirement in the request names the current `table_uuid`; every other
requirement kind (`AssertDefaultSpecID`, `AssertDefaultSortOrderID`,
`AssertCurrentSchemaID`, `AssertLastAssignedFieldID`,
`AssertRefSnapshotID`) is never compared to the metadata, and the only
possible failure is `CommitFailed` from a mismatched UUID. -/
theorem checkRequirementsOnlyTableUuid (m : TableMetadata)
    (reqs : List TableRequirement) :
    (checkRequirements m reqs = .ok () ↔
      ∀ u, TableRequirement.assertTableUUID u ∈ reqs → m.tableUuid = u) ∧
    (checkRequirements m reqs = .ok () ∨
      checkRequirements m reqs = .error .commitFailed) := by
  induction reqs with
  | nil => simp [checkRequirements]
  | cons req rest ih =>
    by_cases hq : ∃ u, req = TableRequirement.assertTableUUID u
    · obtain ⟨u, rfl⟩ := hq
      simp only [checkRequirements]
      by_cases hu : m.tableUuid = u
      · rw [if_neg (by simp [hu])]
        refine ⟨?_, ih.2⟩
        rw [ih.1]
        constructor
        · intro hall v hv
          rcases List.mem_cons.mp hv with hv | hv
          · injection hv with h
            rw [h]; exact hu
          · exact hall v hv
        · intro hall v hv
          exact hall v (List.mem_cons.mpr (Or.inr hv))
      · rw [if_pos (by simp [hu])]
        refine ⟨iff_of_false (by simp) ?_, Or.inr rfl⟩
        intro hall
        exact hu (hall u (List.mem_cons.mpr (Or.inl rfl)))
    · have hr : ∀ u, req ≠ TableRequirement.assertTableUUID u := by
        intro u hcontra
        exact hq ⟨u, hcontra⟩
      obtain ⟨he, hmem⟩ := checkRequirements_skipNonUuid m req rest hr
      rw [he]
      refine ⟨?_, ih.2⟩
      rw [ih.1]
      constructor
      · intro hall v hv
        exact hall v ((hmem v).mp hv)
      · intro hall v hv
        exact hall v ((hmem v).mpr hv)

/-- C2 counterexample: a commit whose request carries mismatched
requirements of every non-UUID kind — `AssertDefaultSpecID(999)`,
`AssertCurrentSchemaID(999)`, `AssertDefaultSortOrderID(999)`,
`AssertLastAssignedFieldID(999)` and `AssertRefSnapshotID("main", 5)` on
metadata whose corresponding fields are `0`, `0`, `0`, `2` and an absent
ref — succeeds instead of failing with `CommitFailed`. -/
theorem mismatchedRequirementsIgnored_cex :
    mBase.defaultSpecId = 0 ∧ mBase.currentSchemaId = 0 ∧
    mBase.defaultSortOrderId = 0 ∧ mBase.lastColumnId = 2 ∧
    dictGet (mBase.refs.getD []) "main" = none ∧
    isOkResult (commitTableUpdate ["db", "t"] mBase oldLoc0
      [.assertDefaultSpecID 999, .assertCurrentSchemaID 999,
       .assertDefaultSortOrderID 999, .assertLastAssignedFieldID 999,
       .assertRefSnapshotID "main" (some 5)]
      [] 2000 "bbb" (some oldLoc0) [oldLoc0]).result = true :=
  ⟨rfl, rfl, rfl, rfl, rfl, rfl⟩

/-- A successful dictionary lookup needs a non-empty dictionary. -/
theorem dictGet_isEmpty_false {β : Type} {d : List (String × β)} {k : String}
    {v : β} (h : dictGet d k = some v) : d.isEmpty = false := by
  cases d
  · simp [dictGet, List.find?] at h
  · rfl

/-- The endpoint's `targetSnapshotId` computation agrees with the amended
resolution order. -/
theorem resolveTarget_eq_spec (m : TableMetadata) (r : String) :
    resolveTargetSnapshotId m r = specTargetSnapshotId m r := by
  unfold resolveTargetSnapshotId specTargetSnapshotId
  by_cases hd : pyIsDigit r = true
  · simp [hd, digitsToNat]
  · have hd2 : pyIsDigit r = false := by simpa using hd
    cases hg : dictGet (m.refs.getD []) r with
    | some v =>
      have hne : (m.refs.getD []).isEmpty = false := dictGet_isEmpty_false hg
      simp [hd2, hg, hne]
    | none =>
      simp only [hd2, Bool.false_eq_true, if_false, hg, Option.isSome_none,
        Bool.and_false, Option.map]
      cases hf : (m.snapshots.getD []).find?
          (fun s => toString s.snapshotId == r) with
      | some s => simp [hf]
      | none => simp [hf]

/-- C5 amended: for every metadata value and ref string, the snapshot-ref
branch of `loadTableEndpoint` behaves exactly as `loadTableRefSpec`
describes: digits win over ref names, then ref names, then printed
snapshot ids; unresolved refs fail `NoSuchTable` with a `ref:` qualifier;
a resolved id absent from `snapshots` fails `CommitFailed`; otherwise a
copy is returned with `current_snapshot_id` retargeted and
`current_schema_id` replaced when the target snapshot has a schema id (the
read is pure: the persisted metadata value is not modified). -/
theorem loadTableRefResolution (identifier : List String) (m : TableMetadata)
    (r : String) :
    resolveLoadTable identifier m r = loadTableRefSpec identifier m r := by
  unfold resolveLoadTable loadTableRefSpec
  rw [resolveTarget_eq_spec]
  cases specTargetSnapshotId m r with
  | none => rfl
  | some target =>
    cases hf : (m.snapshots.getD []).find? (fun s => s.snapshotId == target) with
    | none => simp only [hf]
    | some snap =>
      simp only [hf]
      cases hs : snap.schemaId <;> simp [hs]

/-- C5 counterexample: on `mRefClash`, where `refs` binds the name `"42"`
to snapshot 7, the claim's ref-name-first order would load snapshot 7, but
the endpoint tests `isdigit()` first and loads snapshot 42. -/
theorem loadTableDigitBeatsRefName_cex :
    dictGet (mRefClash.refs.getD []) "42" = some refTo7 ∧
    refTo7.snapshotId = 7 ∧
    (resolveLoadTable ["db", "t"] mRefClash "42").map
      (fun md => md.currentSnapshotId) = .ok (some 42) :=
  ⟨rfl, rfl, rfl⟩

/-- C10: `buildInitialTableMetadata` stores the caller's `schema` object
itself (the first component of the result is that object's final value):
the produced metadata's `schemas` list is exactly `[that object]`; when the
argument arrived with no `schemaId` it has been set to `0` in place, and
when it arrived with one the object is returned untouched. -/
theorem buildInitialMutatesSchemaArgument (tableName : String)
    (schema : Schema) (ps : Option PartitionSpec) (so : Option SortOrder)
    (props : Option (List (String × String))) (loc uuid : String)
    (now : Int) (fuid : String) :
    ((buildInitialTableMetadata tableName schema ps so props loc uuid now
        fuid).2.1.schemas =
      [(buildInitialTableMetadata tableName schema ps so props loc uuid now
        fuid).1]) ∧
    (schema.schemaId = none →
      (buildInitialTableMetadata tableName schema ps so props loc uuid now
        fuid).1 = { schema with schemaId := some 0 }) ∧
    (∀ k, schema.schemaId = some k →
      (buildInitialTableMetadata tableName schema ps so props loc uuid now
        fuid).1 = schema) := by
  refine ⟨rfl, ?_, ?_⟩
  · intro h
    simp [buildInitialTableMetadata, h]
  · intro k h
    simp [buildInitialTableMetadata, h]

/-- A schema arriving from the wire with no `schema-id`. -/
def schemaNoId : Schema :=
  { schemaId := none, fields := [.mk 1 "x" (.prim "int") false none],
    identifierFieldIds := none }

/-- C10 witness: the concrete `schemaNoId` argument comes back with
`schemaId = some 0`. -/
theorem buildInitialMutatesSchemaArgument_witness :
    (buildInitialTableMetadata "t" schemaNoId none none none "/wh/db/t" "u" 5
      "f").1 = { schemaNoId with schemaId := some 0 } :=
  (buildInitialMutatesSchemaArgument "t" schemaNoId none none none "/wh/db/t"
    "u" 5 "f").2.1 rfl

/-- The bound only involves `schemas` and `lastColumnId`, so any update
leaving both alone preserves it. -/
theorem schemaFieldIdBound_congr {m m2 : TableMetadata}
    (hs : m2.schemas = m.schemas) (hl : m2.lastColumnId = m.lastColumnId)
    (hm : schemaFieldIdBound m) : schemaFieldIdBound m2 := by
  intro s hmem
  rw [hl]
  exact hm s (hs ▸ hmem)

/-- One update step preserves the schema invariant: only `AddSchema` touches
`schemas`, and it raises `lastColumnId` to at least the new schema's
recursive maximum field id. -/
theorem applyOneUpdate_schemaBound (ovr : Option String)
    (m m2 : TableMetadata) (u : TableUpdate)
    (h : applyOneUpdate ovr m u = .ok m2) (hm : schemaFieldIdBound m) :
    schemaFieldIdBound m2 := by
  cases u with
  | assignUUID uu =>
    simp only [applyOneUpdate, Except.ok.injEq] at h
    exact schemaFieldIdBound_congr (h ▸ rfl) (h ▸ rfl) hm
  | upgradeFormatVersion v =>
    simp only [applyOneUpdate] at h
    split at h
    · simp only [Except.ok.injEq] at h
      exact schemaFieldIdBound_congr (h ▸ rfl) (h ▸ rfl) hm
    · exact Except.noConfusion h
  | addSchema s la =>
    simp only [applyOneUpdate] at h
    split at h
    · exact Except.noConfusion h
    · simp only [Except.ok.injEq] at h
      subst h
      intro t ht
      simp only at ht ⊢
      rcases List.mem_append.mp ht with h1 | h1
      · have hb : getMaxFieldIdFromSchema t ≤ m.lastColumnId := hm t h1
        have hmax : m.lastColumnId ≤
            max m.lastColumnId (getMaxFieldIdFromSchema s) :=
          le_max_left _ _
        cases la with
        | none => exact le_trans hb hmax
        | some v => exact le_trans hb (le_trans hmax (le_max_left _ _))
      · have ht2 : t = s := List.mem_singleton.mp h1
        subst ht2
        have hmax : getMaxFieldIdFromSchema t ≤
            max m.lastColumnId (getMaxFieldIdFromSchema t) :=
          le_max_right _ _
        cases la with
        | none => exact hmax
        | some v => exact le_trans hmax (le_max_left _ _)
  | setCurrentSchema sid =>
    simp only [applyOneUpdate] at h
    split at h
    · exact Except.noConfusion h
    · simp only [Except.ok.injEq] at h
      exact schemaFieldIdBound_congr (h ▸ rfl) (h ▸ rfl) hm
  | addPartitionSpec spec =>
    simp only [applyOneUpdate] at h
    split at h
    · exact Except.noConfusion h
    · simp only [Except.ok.injEq] at h
      exact schemaFieldIdBound_congr (h ▸ rfl) (h ▸ rfl) hm
  | setDefaultSpec sid =>
    simp only [applyOneUpdate] at h
    split at h
    · exact Except.noConfusion h
    · simp only [Except.ok.injEq] at h
      exact schemaFieldIdBound_congr (h ▸ rfl) (h ▸ rfl) hm
  | addSortOrder so =>
    simp only [applyOneUpdate] at h
    split at h
    · exact Except.noConfusion h
    · simp only [Except.ok.injEq] at h
      exact schemaFieldIdBound_congr (h ▸ rfl) (h ▸ rfl) hm
  | setDefaultSortOrder oid =>
    simp only [applyOneUpdate] at h
    split at h
    · exact Except.noConfusion h
    · simp only [Except.ok.injEq] at h
      exact schemaFieldIdBound_congr (h ▸ rfl) (h ▸ rfl) hm
  | addSnapshot snap =>
    simp only [applyOneUpdate, Except.ok.injEq] at h
    exact schemaFieldIdBound_congr (h ▸ rfl) (h ▸ rfl) hm
  | setSnapshotRef a b c d e f =>
    simp only [applyOneUpdate, Except.ok.injEq] at h
    exact schemaFieldIdBound_congr (h ▸ rfl) (h ▸ rfl) hm
  | setProperties ups =>
    simp only [applyOneUpdate, Except.ok.injEq] at h
    exact schemaFieldIdBound_congr (h ▸ rfl) (h ▸ rfl) hm
  | removeProperties rem =>
    simp only [applyOneUpdate] at h
    cases hp : m.properties with
    | none =>
      rw [hp] at h
      simp only [Except.ok.injEq] at h
      exact schemaFieldIdBound_congr (h ▸ rfl) (h ▸ rfl) hm
    | some ps =>
      simp only [hp] at h
      by_cases hemp : ps.isEmpty = true
      · rw [if_pos hemp] at h
        simp only [Except.ok.injEq] at h
        exact schemaFieldIdBound_congr (h ▸ rfl) (h ▸ rfl) hm
      · rw [if_neg hemp] at h
        simp only [Except.ok.injEq] at h
        exact schemaFieldIdBound_congr (h ▸ rfl) (h ▸ rfl) hm
  | setLocation loc =>
    simp only [applyOneUpdate] at h
    by_cases htr : pyTruthyStr ovr = true
    · rw [if_pos htr] at h
      simp only [Except.ok.injEq] at h
      exact schemaFieldIdBound_congr (h ▸ rfl) (h ▸ rfl) hm
    · rw [if_neg htr] at h
      simp only [Except.ok.injEq] at h
      exact schemaFieldIdBound_congr (h ▸ rfl) (h ▸ rfl) hm
  | removeSnapshots ids =>
    simp only [applyOneUpdate] at h
    exact Except.noConfusion h
  | removeSnapshotRef n =>
    simp only [applyOneUpdate] at h
    exact Except.noConfusion h

/-- The update loop preserves the schema invariant. -/
theorem applyUpdatesLoop_schemaBound (ovr : Option String) :
    ∀ (us : List TableUpdate) (m m2 : TableMetadata),
      applyUpdatesLoop ovr m us = .ok m2 → schemaFieldIdBound m →
      schemaFieldIdBound m2 := by
  intro us
  induction us with
  | nil =>
    intro m m2 h hm
    simp only [applyUpdatesLoop, Except.ok.injEq] at h
    exact h ▸ hm
  | cons u rest ih =>
    intro m m2 h hm
    simp only [applyUpdatesLoop] at h
    cases hu : applyOneUpdate ovr m u with
    | error e => rw [hu] at h; exact Except.noConfusion h
    | ok m1 =>
      rw [hu] at h
      exact ih m1 m2 h (applyOneUpdate_schemaBound ovr m m1 u hu hm)

/-- C8: every metadata value built by `buildInitialTableMetadata` satisfies
the schema invariant — `last_column_id` dominates the recursive maximum
field id of every stored schema — and every successful
`applyUpdatesToMetadata` run preserves it, so all metadata the service ever
produces satisfies it. -/
theorem producedMetadataSchemaBound :
    (∀ (tn : String) (sch : Schema) (ps : Option PartitionSpec)
      (so : Option SortOrder) (props : Option (List (String × String)))
      (loc uuid : String) (now : Int) (fuid : String),
      schemaFieldIdBound
        (buildInitialTableMetadata tn sch ps so props loc uuid now fuid).2.1) ∧
    (∀ (m : TableMetadata) (updates : List TableUpdate)
      (ovr : Option String) (now : Int) (m2 : TableMetadata),
      applyUpdatesToMetadata m updates ovr now = .ok m2 →
      schemaFieldIdBound m → schemaFieldIdBound m2) := by
  constructor
  · intro tn sch ps so props loc uuid now fuid t ht
    simp only [buildInitialTableMetadata, List.mem_singleton] at ht
    subst ht
    simp only [buildInitialTableMetadata, getMaxFieldIdFromSchema]
    by_cases hf : sch.fields.isEmpty
    · have hnil : sch.fields = [] := List.isEmpty_iff.mp hf
      split <;> simp [hnil, getMaxIdRecursive]
    · have hff : sch.fields.isEmpty = false := by
        simpa using hf
      split <;> simp [hff, getMaxIdRecursive]
  · intro m updates ovr now m2 h hm
    have hstart : schemaFieldIdBound { m with lastUpdatedMs := now } :=
      schemaFieldIdBound_congr rfl rfl hm
    exact applyUpdatesLoop_schemaBound ovr updates _ m2 h hstart

/-- C8 witness: the invariant holds on the concrete built table and is
carried through a concrete successful update run. -/
theorem producedMetadataSchemaBound_witness :
    schemaFieldIdBound
      (buildInitialTableMetadata "t" schemaNoId none none none "/wh/db/t" "u"
        5 "f").2.1 ∧
    schemaFieldIdBound { mBase with lastUpdatedMs := 2000 } :=
  ⟨producedMetadataSchemaBound.1 "t" schemaNoId none none none "/wh/db/t" "u"
      5 "f",
    producedMetadataSchemaBound.2 mBase [] none 2000
      { mBase with lastUpdatedMs := 2000 } rfl
      (by unfold schemaFieldIdBound; decide)⟩

/-- C1: on the update path, when the catalog row points elsewhere by the
time of the CAS — the location `cur` re-read inside
`updateTableMetadataLocation` differs from the `oldLoc` read at the start
of the commit — the endpoint answers `CommitFailed`, deletes the metadata
file it had just written, and leaves the row at its current location.  The
hypotheses state that the commit reached the CAS (the requirements check
and the update application succeeded) and that the expected location is
non-empty, which holds of every catalog row the service creates (an empty
expected value would skip the lock, claim C9). -/
theorem commitCasMismatchRollsBack (identifier : List String)
    (m nm : TableMetadata) (oldLoc : String)
    (reqs : List TableRequirement) (updates : List TableUpdate)
    (now : Int) (fuid : String) (cur : String) (files : List String)
    (hreq : checkRequirements m reqs = .ok ())
    (happ : applyUpdatesToMetadata m updates
      (some ((firstSetLocation updates).getD m.location)) now = .ok nm)
    (hcas : cur ≠ oldLoc) (hold : oldLoc ≠ "") :
    commitTableUpdate identifier m oldLoc reqs updates now fuid (some cur)
      files =
    ⟨.error .commitFailed, some cur,
      deleteFileFrom
        (writeFileTo files
          (generateNewMetadataLocation nm.location (some oldLoc) fuid))
        (generateNewMetadataLocation nm.location (some oldLoc) fuid)⟩ := by
  have h1 : (oldLoc == "") = false := beq_eq_false_iff_ne.mpr hold
  have h2 : (cur == oldLoc) = false := beq_eq_false_iff_ne.mpr hcas
  have hcasresult : updateTableMetadataLocation (some cur) identifier
      (generateNewMetadataLocation nm.location (some oldLoc) fuid)
      (some oldLoc) = .error .commitFailed := by
    simp [updateTableMetadataLocation, pyTruthyStr, h1, h2]
  simp only [commitTableUpdate, hreq, happ, hcasresult]

/-- C1 witness: a concrete lost race.  While this commit (based on
`00000-aaa`) wrote `00001-bbb`, the row moved to `00001-ccc`; the outcome
is `CommitFailed`, the file just written is deleted again, and the row
still points at `00001-ccc`. -/
theorem commitCasMismatchRollsBack_witness :
    commitTableUpdate ["db", "t"] mBase oldLoc0 [] [] 2000 "bbb"
      (some "/wh/db/t/metadata/00001-ccc.metadata.json") [oldLoc0] =
    ⟨.error .commitFailed, some "/wh/db/t/metadata/00001-ccc.metadata.json",
      deleteFileFrom
        (writeFileTo [oldLoc0]
          (generateNewMetadataLocation
            ({ mBase with lastUpdatedMs := 2000 } : TableMetadata).location
            (some oldLoc0) "bbb"))
        (generateNewMetadataLocation
          ({ mBase with lastUpdatedMs := 2000 } : TableMetadata).location
          (some oldLoc0) "bbb")⟩ :=
  commitCasMismatchRollsBack ["db", "t"] mBase
    { mBase with lastUpdatedMs := 2000 } oldLoc0 [] [] 2000 "bbb"
    "/wh/db/t/metadata/00001-ccc.metadata.json" [oldLoc0] rfl rfl
    (by decide) (by decide)

end RestCatalog
